import Mathlib

/-!
Verification of the MXL (Media eXchange Layer) core against its
natural-language specification.

Part 1 models `src/lib/src/time.cpp`: the TAI index/timestamp conversion
functions.  C++ `uint64_t` values are modelled as `Nat` (every reachable
arithmetic result is checked against explicit bounds exactly as the code
does), and the `__int128_t` intermediates are modelled as `Int` together
with the code's explicit overflow guards against `INT128_MAX`.

Part 2 models `src/lib/src/internal/FlowManager.cpp`: flow directory
creation/publication, listing and deletion, over an explicit filesystem
state (paths are segment lists relative to the MXL domain directory).
-/

namespace MxlTime

/-- The all-ones `u64` sentinel `MXL_UNDEFINED_INDEX` (2^64 - 1). -/
def MXL_UNDEFINED_INDEX : Nat := 18446744073709551615

/-- `MAX_REASONABLE_TIMESTAMP` from time.cpp: `u64::MAX / 2`. -/
def MAX_REASONABLE_TIMESTAMP : Nat := 9223372036854775807

/-- The largest value of the C++ `__int128_t` type, used by the code's
explicit overflow guards. -/
def INT128_MAX : Int := 170141183460469231731687303715884105727

/-- `Rational` edit rate: numerator and denominator are C++ `uint32_t`
fields, modelled as `Nat`. -/
structure Rational where
  numerator : Nat
  denominator : Nat
deriving DecidableEq

/-- `isValidEditRate` from time.cpp.  A null pointer is modelled as
`none`. -/
def isValidEditRate : Option Rational → Bool
  | none => false
  | some r =>
    if r.denominator == 0 || r.numerator == 0 then false
    else if r.numerator > 1000000000 || r.denominator > 1000000000 then false
    else if r.numerator < 1 || r.denominator < 1 then false
    else true

/-- `isValidTimestamp` from time.cpp. -/
def isValidTimestamp (timestamp : Nat) : Bool :=
  if timestamp == MXL_UNDEFINED_INDEX then false
  else if timestamp > MAX_REASONABLE_TIMESTAMP then false
  else true

/-- `isValidIndex` from time.cpp. -/
def isValidIndex (index : Nat) : Bool :=
  if index == MXL_UNDEFINED_INDEX then false
  else if index > MAX_REASONABLE_TIMESTAMP then false
  else true

/-- `safecast128ToUint64` from time.cpp. -/
def safecast128ToUint64 (value : Int) : Nat :=
  if value < 0 then MXL_UNDEFINED_INDEX
  else if value > 18446744073709551615 then MXL_UNDEFINED_INDEX
  else if value.toNat > MAX_REASONABLE_TIMESTAMP then MXL_UNDEFINED_INDEX
  else value.toNat

/-- `mxlTimestampToIndex` from time.cpp. -/
def mxlTimestampToIndex (editRate : Option Rational) (timestamp : Nat) : Nat :=
  match editRate with
  | none => MXL_UNDEFINED_INDEX
  | some r =>
    if !isValidEditRate (some r) then MXL_UNDEFINED_INDEX
    else if !isValidTimestamp timestamp then MXL_UNDEFINED_INDEX
    else
      let numerator : Int := (timestamp : Int) * (r.numerator : Int)
      let rounding : Int := 500000000 * (r.denominator : Int)
      let denominator : Int := 1000000000 * (r.denominator : Int)
      if numerator < 0 ∨ rounding < 0 ∨ denominator ≤ 0 then MXL_UNDEFINED_INDEX
      else if numerator > INT128_MAX - rounding then MXL_UNDEFINED_INDEX
      else safecast128ToUint64 ((numerator + rounding) / denominator)

/-- `mxlIndexToTimestamp` from time.cpp. -/
def mxlIndexToTimestamp (editRate : Option Rational) (index : Nat) : Nat :=
  match editRate with
  | none => MXL_UNDEFINED_INDEX
  | some r =>
    if !isValidEditRate (some r) then MXL_UNDEFINED_INDEX
    else if !isValidIndex index then MXL_UNDEFINED_INDEX
    else
      let numerator : Int := (index : Int) * (r.denominator : Int) * 1000000000
      let rounding : Int := (r.numerator : Int) / 2
      let denominator : Int := (r.numerator : Int)
      if numerator < 0 ∨ rounding < 0 ∨ denominator ≤ 0 then MXL_UNDEFINED_INDEX
      else if numerator > INT128_MAX - rounding then MXL_UNDEFINED_INDEX
      else safecast128ToUint64 ((numerator + rounding) / denominator)

/-- `mxlGetNsUntilIndex` from time.cpp.  The value read from `mxlGetTime()`
during the call is passed explicitly as `nowNs` (the clock itself is
ambient state; `mxlGetTime` returns `0` on failure and otherwise a value
at most `MAX_REASONABLE_TIMESTAMP`). -/
def mxlGetNsUntilIndex (index : Nat) (editRate : Option Rational) (nowNs : Nat) : Nat :=
  if !isValidEditRate editRate then MXL_UNDEFINED_INDEX
  else if !isValidIndex index then MXL_UNDEFINED_INDEX
  else
    let targetNs := mxlIndexToTimestamp editRate index
    if targetNs == MXL_UNDEFINED_INDEX then MXL_UNDEFINED_INDEX
    else if nowNs == 0 then MXL_UNDEFINED_INDEX
    else if targetNs < nowNs then 0
    else
      let diff := targetNs - nowNs
      if diff > MAX_REASONABLE_TIMESTAMP then MXL_UNDEFINED_INDEX
      else diff

/-- `mxlGetCurrentIndex` from time.cpp, with the `mxlGetTime()` reading
passed explicitly as `nowNs`. -/
def mxlGetCurrentIndex (editRate : Option Rational) (nowNs : Nat) : Nat :=
  if !isValidEditRate editRate then MXL_UNDEFINED_INDEX
  else if nowNs == 0 then MXL_UNDEFINED_INDEX
  else mxlTimestampToIndex editRate nowNs

/-- The nearest-rounded index formula from the spec, computed with exact
integer arithmetic: `⌊(ts·num + ½·den·1e9) / (den·1e9)⌋`. -/
def specTimestampToIndex (num den ts : Nat) : Nat :=
  (ts * num + den * 500000000) / (den * 1000000000)

/-- The timestamp formula realised by `mxlIndexToTimestamp`:
`⌊(idx·den·1e9 + ⌊num/2⌋) / num⌋`. -/
def specIndexToTimestamp (num den idx : Nat) : Nat :=
  (idx * den * 1000000000 + num / 2) / num

end MxlTime

namespace MxlTime

/-- `safecast128ToUint64` on a non-negative (natural) value clips to the
sentinel exactly when the value exceeds `MAX_REASONABLE_TIMESTAMP`. -/
theorem safecast_natCast (n : Nat) :
    safecast128ToUint64 (n : Int) =
      if MAX_REASONABLE_TIMESTAMP < n then MXL_UNDEFINED_INDEX else n := by
  unfold safecast128ToUint64
  rw [Int.toNat_natCast]
  simp only [MAX_REASONABLE_TIMESTAMP, MXL_UNDEFINED_INDEX]
  split_ifs <;> omega

/-- Edit-rate validation accepts exactly numerators and denominators in
`[1, 10^9]`. -/
theorem isValidEditRate_iff (r : Rational) :
    isValidEditRate (some r) = true ↔
      1 ≤ r.numerator ∧ r.numerator ≤ 1000000000 ∧
      1 ≤ r.denominator ∧ r.denominator ≤ 1000000000 := by
  constructor
  · intro h
    simp only [isValidEditRate] at h
    split_ifs at h with h1 h2 h3
    simp only [Bool.or_eq_true, beq_iff_eq, decide_eq_true_eq, not_or] at h1 h2 h3
    omega
  · intro hb
    obtain ⟨h1, h2, h3, h4⟩ := hb
    simp only [isValidEditRate]
    rw [if_neg (by simp only [Bool.or_eq_true, beq_iff_eq, not_or]; omega),
        if_neg (by simp only [Bool.or_eq_true, decide_eq_true_eq, not_or]; omega),
        if_neg (by simp only [Bool.or_eq_true, decide_eq_true_eq, not_or]; omega)]

/-- Timestamps up to `u64::MAX / 2` pass timestamp validation. -/
theorem isValidTimestamp_true (t : Nat) (h : t ≤ MAX_REASONABLE_TIMESTAMP) :
    isValidTimestamp t = true := by
  unfold isValidTimestamp
  unfold MAX_REASONABLE_TIMESTAMP at h
  rw [if_neg (by simp only [beq_iff_eq, MXL_UNDEFINED_INDEX]; omega),
    if_neg (by unfold MAX_REASONABLE_TIMESTAMP; omega)]

/-- Indices up to `u64::MAX / 2` pass index validation. -/
theorem isValidIndex_true (i : Nat) (h : i ≤ MAX_REASONABLE_TIMESTAMP) :
    isValidIndex i = true := by
  unfold isValidIndex
  unfold MAX_REASONABLE_TIMESTAMP at h
  rw [if_neg (by simp only [beq_iff_eq, MXL_UNDEFINED_INDEX]; omega),
    if_neg (by unfold MAX_REASONABLE_TIMESTAMP; omega)]

/-- For a valid rate and in-range timestamp, the nearest-rounded index is
itself in range, so `safecast128ToUint64` never clips it. -/
theorem specTimestampToIndex_le (num den ts : Nat)
    (h1 : ts ≤ MAX_REASONABLE_TIMESTAMP) (h2 : num ≤ 1000000000) (h3 : 1 ≤ den) :
    specTimestampToIndex num den ts ≤ MAX_REASONABLE_TIMESTAMP := by
  unfold specTimestampToIndex MAX_REASONABLE_TIMESTAMP
  unfold MAX_REASONABLE_TIMESTAMP at h1
  have hlt : ts * num + den * 500000000 < 9223372036854775808 * (den * 1000000000) := by
    nlinarith
  have h2' : (ts * num + den * 500000000) / (den * 1000000000) < 9223372036854775808 :=
    (Nat.div_lt_iff_lt_mul (by positivity)).mpr hlt
  omega

/-- Bridge: on a valid rate and in-range timestamp the code computes
exactly the Nat-arithmetic nearest-rounding formula. -/
theorem timestampToIndex_eq_spec (num den ts : Nat)
    (hn1 : 1 ≤ num) (hn2 : num ≤ 1000000000)
    (hd1 : 1 ≤ den) (hd2 : den ≤ 1000000000)
    (ht : ts ≤ MAX_REASONABLE_TIMESTAMP) :
    mxlTimestampToIndex (some ⟨num, den⟩) ts = specTimestampToIndex num den ts := by
  have hval : isValidEditRate (some ⟨num, den⟩) = true :=
    (isValidEditRate_iff _).mpr ⟨hn1, hn2, hd1, hd2⟩
  have hdpos : (0 : Int) < (den : Int) := by exact_mod_cast hd1
  simp only [mxlTimestampToIndex, hval, isValidTimestamp_true ts ht, Bool.not_true,
    Bool.false_eq_true, if_false]
  rw [if_neg (by
    push_neg
    refine ⟨by positivity, by positivity, by nlinarith⟩)]
  rw [if_neg (by
    push_neg
    have hts : (ts : Int) ≤ 9223372036854775807 := by
      unfold MAX_REASONABLE_TIMESTAMP at ht; exact_mod_cast ht
    have hnum : (num : Int) ≤ 1000000000 := by exact_mod_cast hn2
    have hden : (den : Int) ≤ 1000000000 := by exact_mod_cast hd2
    have hb : (ts : Int) * (num : Int) ≤ 9223372036854775807 * 1000000000 := by
      have := mul_le_mul hts hnum (by positivity) (by positivity)
      linarith
    unfold INT128_MAX
    nlinarith)]
  have e1 : ((ts : Int) * (num : Int) + 500000000 * (den : Int)) =
      ((ts * num + den * 500000000 : Nat) : Int) := by push_cast; ring
  have e2 : ((1000000000 : Int) * (den : Int)) = ((den * 1000000000 : Nat) : Int) := by
    push_cast; ring
  rw [e1, e2, ← Int.natCast_div, safecast_natCast]
  rw [if_neg (by
    push_neg
    exact specTimestampToIndex_le num den ts ht hn2 hd1)]
  rfl

/-- Bridge: on a valid rate and in-range index the code computes the
Nat-arithmetic timestamp formula, clipped to the sentinel when out of
range. -/
theorem indexToTimestamp_eq_spec (num den idx : Nat)
    (hn1 : 1 ≤ num) (hn2 : num ≤ 1000000000)
    (hd1 : 1 ≤ den) (hd2 : den ≤ 1000000000)
    (hi : idx ≤ MAX_REASONABLE_TIMESTAMP) :
    mxlIndexToTimestamp (some ⟨num, den⟩) idx =
      if MAX_REASONABLE_TIMESTAMP < specIndexToTimestamp num den idx
      then MXL_UNDEFINED_INDEX else specIndexToTimestamp num den idx := by
  have hval : isValidEditRate (some ⟨num, den⟩) = true :=
    (isValidEditRate_iff _).mpr ⟨hn1, hn2, hd1, hd2⟩
  have hdpos : (0 : Int) < (den : Int) := by exact_mod_cast hd1
  have hnpos : (0 : Int) < (num : Int) := by exact_mod_cast hn1
  simp only [mxlIndexToTimestamp, hval, isValidIndex_true idx hi, Bool.not_true,
    Bool.false_eq_true, if_false]
  rw [if_neg (by
    push_neg
    refine ⟨by positivity, by omega, hnpos⟩)]
  rw [if_neg (by
    push_neg
    have hix : (idx : Int) ≤ 9223372036854775807 := by
      unfold MAX_REASONABLE_TIMESTAMP at hi; exact_mod_cast hi
    have hden : (den : Int) ≤ 1000000000 := by exact_mod_cast hd2
    have hb : (idx : Int) * (den : Int) ≤ 9223372036854775807 * 1000000000 := by
      have := mul_le_mul hix hden (by positivity) (by positivity)
      linarith
    have hr2 : (num : Int) / 2 ≤ 500000000 := by omega
    unfold INT128_MAX
    nlinarith)]
  have ehalf : ((num : Int)) / 2 = ((num / 2 : Nat) : Int) := by omega
  have e1 : ((idx : Int) * (den : Int) * 1000000000 + (num : Int) / 2) =
      ((idx * den * 1000000000 + num / 2 : Nat) : Int) := by
    rw [ehalf]; push_cast; ring
  rw [e1, ← Int.natCast_div, safecast_natCast]
  rfl

/-- The pure arithmetic heart of the round-trip: nearest-rounding back
from the rounded timestamp recovers the index, for every rate in the
validated range. -/
theorem roundtrip_core (num den i : Nat) (h1 : 1 ≤ num) (h2 : num ≤ 1000000000)
    (h3 : 1 ≤ den) (h4 : den ≤ 1000000000) :
    specTimestampToIndex num den (specIndexToTimestamp num den i) = i := by
  unfold specTimestampToIndex specIndexToTimestamp
  have hnum : 0 < num := h1
  have hsum := Nat.div_add_mod (i * den * 1000000000 + num / 2) num
  have hr := Nat.mod_lt (i * den * 1000000000 + num / 2) hnum
  set q := (i * den * 1000000000 + num / 2) / num with hq
  set r := (i * den * 1000000000 + num / 2) % num with hrdef
  have hassoc : i * den * 1000000000 = i * (den * 1000000000) := by ring
  have hcases : num < den * 1000000000 ∨ num = den * 1000000000 := by omega
  have hkey : ∃ c, c < den * 1000000000 ∧
      q * num + den * 500000000 = i * (den * 1000000000) + c := by
    rcases hcases with hlt | heq
    · refine ⟨num / 2 + den * 500000000 - r, by omega, by
        rw [mul_comm q num]
        omega⟩
    · have hrval : r = num / 2 := by
        rw [hrdef, heq]
        have hc : i * den * 1000000000 = (den * 1000000000) * i := by ring
        rw [hc, ← heq, Nat.mul_comm num i, Nat.add_comm, Nat.add_mul_mod_self_right]
        exact Nat.mod_eq_of_lt (by omega)
      refine ⟨den * 500000000, by omega, by
        rw [mul_comm q num]
        omega⟩
  obtain ⟨c, hclt, hck⟩ := hkey
  rw [hck, mul_comm i (den * 1000000000), Nat.mul_add_div (by positivity),
    Nat.div_eq_of_lt hclt]
  omega

end MxlTime

namespace MxlTime

theorem timestampToIndex_invalidRate (r : Rational) (t : Nat)
    (h : isValidEditRate (some r) = false) :
    mxlTimestampToIndex (some r) t = MXL_UNDEFINED_INDEX := by
  simp [mxlTimestampToIndex, h]

theorem indexToTimestamp_invalidRate (r : Rational) (i : Nat)
    (h : isValidEditRate (some r) = false) :
    mxlIndexToTimestamp (some r) i = MXL_UNDEFINED_INDEX := by
  simp [mxlIndexToTimestamp, h]

theorem nsUntilIndex_invalidRate (r : Rational) (i n : Nat)
    (h : isValidEditRate (some r) = false) :
    mxlGetNsUntilIndex i (some r) n = MXL_UNDEFINED_INDEX := by
  simp [mxlGetNsUntilIndex, h]

theorem isValidTimestamp_false (t : Nat) (h : MAX_REASONABLE_TIMESTAMP < t) :
    isValidTimestamp t = false := by
  unfold isValidTimestamp
  split_ifs <;> first | rfl | omega

theorem isValidIndex_false (i : Nat) (h : MAX_REASONABLE_TIMESTAMP < i) :
    isValidIndex i = false := by
  unfold isValidIndex
  split_ifs <;> first | rfl | omega

theorem timestampToIndex_bigTs (r : Rational) (t : Nat)
    (h : MAX_REASONABLE_TIMESTAMP < t) :
    mxlTimestampToIndex (some r) t = MXL_UNDEFINED_INDEX := by
  by_cases hv : isValidEditRate (some r) <;>
    simp [mxlTimestampToIndex, hv, isValidTimestamp_false t h]

theorem indexToTimestamp_bigIdx (r : Rational) (i : Nat)
    (h : MAX_REASONABLE_TIMESTAMP < i) :
    mxlIndexToTimestamp (some r) i = MXL_UNDEFINED_INDEX := by
  by_cases hv : isValidEditRate (some r) <;>
    simp [mxlIndexToTimestamp, hv, isValidIndex_false i h]

theorem nsUntilIndex_bigIdx (r : Rational) (i n : Nat)
    (h : MAX_REASONABLE_TIMESTAMP < i) :
    mxlGetNsUntilIndex i (some r) n = MXL_UNDEFINED_INDEX := by
  by_cases hv : isValidEditRate (some r) <;>
    simp [mxlGetNsUntilIndex, hv, isValidIndex_false i h]

theorem safecast_undef_or_le (v : Int) :
    safecast128ToUint64 v = MXL_UNDEFINED_INDEX ∨
      safecast128ToUint64 v ≤ MAX_REASONABLE_TIMESTAMP := by
  unfold safecast128ToUint64
  split_ifs with a b c
  · exact Or.inl rfl
  · exact Or.inl rfl
  · exact Or.inl rfl
  · exact Or.inr (by omega)

theorem timestampToIndex_undef_or_le (editRate : Option Rational) (t : Nat) :
    mxlTimestampToIndex editRate t = MXL_UNDEFINED_INDEX ∨
      mxlTimestampToIndex editRate t ≤ MAX_REASONABLE_TIMESTAMP := by
  match editRate with
  | none => exact Or.inl rfl
  | some r =>
    simp only [mxlTimestampToIndex]
    split_ifs <;> first | exact Or.inl rfl | exact safecast_undef_or_le _

theorem indexToTimestamp_undef_or_le (editRate : Option Rational) (i : Nat) :
    mxlIndexToTimestamp editRate i = MXL_UNDEFINED_INDEX ∨
      mxlIndexToTimestamp editRate i ≤ MAX_REASONABLE_TIMESTAMP := by
  match editRate with
  | none => exact Or.inl rfl
  | some r =>
    simp only [mxlIndexToTimestamp]
    split_ifs <;> first | exact Or.inl rfl | exact safecast_undef_or_le _

/-- C1: for every edit rate passing validation and every in-range index
whose timestamp is defined, converting the index to a timestamp and back
yields the same index. -/
theorem C1_index_timestamp_roundtrip (r : Rational) (i : Nat)
    (hrate : isValidEditRate (some r) = true)
    (hi : i ≤ MAX_REASONABLE_TIMESTAMP)
    (hdef : mxlIndexToTimestamp (some r) i ≠ MXL_UNDEFINED_INDEX) :
    mxlTimestampToIndex (some r) (mxlIndexToTimestamp (some r) i) = i := by
  obtain ⟨hn1, hn2, hd1, hd2⟩ := (isValidEditRate_iff r).mp hrate
  obtain ⟨num, den⟩ := r
  rw [indexToTimestamp_eq_spec num den i hn1 hn2 hd1 hd2 hi] at hdef ⊢
  by_cases hbig : MAX_REASONABLE_TIMESTAMP < specIndexToTimestamp num den i
  · rw [if_pos hbig] at hdef
    exact absurd rfl hdef
  · rw [if_neg hbig]
    rw [timestampToIndex_eq_spec num den _ hn1 hn2 hd1 hd2 (by omega)]
    exact roundtrip_core num den i hn1 hn2 hd1 hd2

/-- Witness for C1 at rate 30000/1001, index 42. -/
theorem C1_index_timestamp_roundtrip_witness :
    mxlIndexToTimestamp (some ⟨30000, 1001⟩) 42 ≠ MXL_UNDEFINED_INDEX ∧
    mxlTimestampToIndex (some ⟨30000, 1001⟩)
      (mxlIndexToTimestamp (some ⟨30000, 1001⟩) 42) = 42 :=
  ⟨by decide,
   C1_index_timestamp_roundtrip ⟨30000, 1001⟩ 42 (by decide) (by decide) (by decide)⟩

/-- C2: for every valid edit rate and in-range timestamp the code returns
the exact nearest-rounded index `⌊(ts·num + den·5e8) / (den·1e9)⌋`. -/
theorem C2_timestampToIndex_is_nearest (r : Rational) (ts : Nat)
    (hrate : isValidEditRate (some r) = true)
    (ht : ts ≤ MAX_REASONABLE_TIMESTAMP) :
    mxlTimestampToIndex (some r) ts =
      (ts * r.numerator + r.denominator * 500000000) /
        (r.denominator * 1000000000) := by
  obtain ⟨hn1, hn2, hd1, hd2⟩ := (isValidEditRate_iff r).mp hrate
  obtain ⟨num, den⟩ := r
  exact timestampToIndex_eq_spec num den ts hn1 hn2 hd1 hd2 ht

/-- Witness for C2 at rate 30000/1001, timestamp 33366667. -/
theorem C2_timestampToIndex_is_nearest_witness :
    mxlTimestampToIndex (some ⟨30000, 1001⟩) 33366667 =
      (33366667 * 30000 + 1001 * 500000000) / (1001 * 1000000000) :=
  C2_timestampToIndex_is_nearest ⟨30000, 1001⟩ 33366667 (by decide) (by decide)

/-- C3: every conversion returns the all-ones sentinel on a null rate, a
zero or above-10^9 numerator or denominator, or an out-of-range
timestamp/index argument. -/
theorem C3_invalid_inputs_give_sentinel (r : Rational) (t i n : Nat) :
    (mxlTimestampToIndex none t = MXL_UNDEFINED_INDEX ∧
     mxlIndexToTimestamp none i = MXL_UNDEFINED_INDEX ∧
     mxlGetNsUntilIndex i none n = MXL_UNDEFINED_INDEX) ∧
    (r.numerator = 0 ∨ r.denominator = 0 ∨
        1000000000 < r.numerator ∨ 1000000000 < r.denominator →
      mxlTimestampToIndex (some r) t = MXL_UNDEFINED_INDEX ∧
      mxlIndexToTimestamp (some r) i = MXL_UNDEFINED_INDEX ∧
      mxlGetNsUntilIndex i (some r) n = MXL_UNDEFINED_INDEX) ∧
    (MAX_REASONABLE_TIMESTAMP < t →
      mxlTimestampToIndex (some r) t = MXL_UNDEFINED_INDEX) ∧
    (MAX_REASONABLE_TIMESTAMP < i →
      mxlIndexToTimestamp (some r) i = MXL_UNDEFINED_INDEX ∧
      mxlGetNsUntilIndex i (some r) n = MXL_UNDEFINED_INDEX) := by
  refine ⟨⟨rfl, rfl, rfl⟩, ?_, timestampToIndex_bigTs r t, ?_⟩
  · intro hbad
    have hinv : isValidEditRate (some r) = false := by
      cases hv : isValidEditRate (some r)
      · rfl
      · have := (isValidEditRate_iff r).mp hv
        omega
    exact ⟨timestampToIndex_invalidRate r t hinv,
      indexToTimestamp_invalidRate r i hinv,
      nsUntilIndex_invalidRate r i n hinv⟩
  · intro hbig
    exact ⟨indexToTimestamp_bigIdx r i hbig, nsUntilIndex_bigIdx r i n hbig⟩

/-- Witness for C3 with a zero-numerator rate and out-of-range arguments. -/
theorem C3_invalid_inputs_give_sentinel_witness :
    mxlTimestampToIndex (some ⟨0, 1001⟩) 7 = MXL_UNDEFINED_INDEX ∧
    mxlIndexToTimestamp (some ⟨0, 1001⟩) 7 = MXL_UNDEFINED_INDEX ∧
    mxlGetNsUntilIndex 7 (some ⟨0, 1001⟩) 3 = MXL_UNDEFINED_INDEX :=
  (C3_invalid_inputs_give_sentinel ⟨0, 1001⟩ 7 7 3).2.1 (Or.inl rfl)

end MxlTime

namespace MxlTime

/-- C9: for every rate pointer and argument, both conversions return
either the all-ones sentinel or a value at most `u64::MAX / 2`; no
defined result lies strictly between the two, so a success can never be
mistaken for the sentinel. -/
theorem C9_results_sentinel_or_in_range (editRate : Option Rational) (t i : Nat) :
    (mxlTimestampToIndex editRate t = MXL_UNDEFINED_INDEX ∨
      mxlTimestampToIndex editRate t ≤ MAX_REASONABLE_TIMESTAMP) ∧
    (mxlIndexToTimestamp editRate i = MXL_UNDEFINED_INDEX ∨
      mxlIndexToTimestamp editRate i ≤ MAX_REASONABLE_TIMESTAMP) ∧
    ¬(MAX_REASONABLE_TIMESTAMP < mxlTimestampToIndex editRate t ∧
        mxlTimestampToIndex editRate t < MXL_UNDEFINED_INDEX) ∧
    ¬(MAX_REASONABLE_TIMESTAMP < mxlIndexToTimestamp editRate i ∧
        mxlIndexToTimestamp editRate i < MXL_UNDEFINED_INDEX) := by
  have h1 := timestampToIndex_undef_or_le editRate t
  have h2 := indexToTimestamp_undef_or_le editRate i
  refine ⟨h1, h2, ?_, ?_⟩
  · rintro ⟨hlo, hhi⟩
    rcases h1 with h | h <;> omega
  · rintro ⟨hlo, hhi⟩
    rcases h2 with h | h <;> omega

/-- C7: for a valid rate, an in-range index and a successful clock
reading (`mxlGetTime` returns a nonzero value, itself at most
`u64::MAX / 2`), `mxlGetNsUntilIndex` returns `0` when the index's
timestamp is at or before the reading, the exact difference when it is in
the future, and the sentinel when the conversion itself overflowed. -/
theorem C7_nsUntilIndex_behaviour (r : Rational) (i nowNs : Nat)
    (hrate : isValidEditRate (some r) = true)
    (hi : i ≤ MAX_REASONABLE_TIMESTAMP)
    (hnow1 : 0 < nowNs) (hnow2 : nowNs ≤ MAX_REASONABLE_TIMESTAMP) :
    mxlGetNsUntilIndex i (some r) nowNs =
      if mxlIndexToTimestamp (some r) i = MXL_UNDEFINED_INDEX
      then MXL_UNDEFINED_INDEX
      else if mxlIndexToTimestamp (some r) i ≤ nowNs then 0
      else mxlIndexToTimestamp (some r) i - nowNs := by
  have hc1 : MAX_REASONABLE_TIMESTAMP = 9223372036854775807 := rfl
  have hc2 : MXL_UNDEFINED_INDEX = 18446744073709551615 := rfl
  have htgt := indexToTimestamp_undef_or_le (some r) i
  unfold mxlGetNsUntilIndex
  rw [hrate, isValidIndex_true i hi]
  simp only [Bool.not_true, Bool.false_eq_true, if_false]
  by_cases hu : mxlIndexToTimestamp (some r) i = MXL_UNDEFINED_INDEX
  · simp [hu]
  · have hle : mxlIndexToTimestamp (some r) i ≤ MAX_REASONABLE_TIMESTAMP := by
      rcases htgt with h | h
      · exact absurd h hu
      · exact h
    rw [if_neg hu]
    rw [if_neg (by simp only [beq_iff_eq]; exact hu),
      if_neg (by simp only [beq_iff_eq]; omega)]
    by_cases hpast : mxlIndexToTimestamp (some r) i < nowNs
    · rw [if_pos hpast, if_pos (by omega)]
    · rw [if_neg hpast]
      by_cases heq : mxlIndexToTimestamp (some r) i ≤ nowNs
      · rw [if_pos heq, if_neg (by omega)]
        omega
      · rw [if_neg heq, if_neg (by omega)]

/-- Witness for C7 at rate 30000/1001, index 1, clock reading 1000 ns. -/
theorem C7_nsUntilIndex_behaviour_witness :
    mxlGetNsUntilIndex 1 (some ⟨30000, 1001⟩) 1000 =
      if mxlIndexToTimestamp (some ⟨30000, 1001⟩) 1 = MXL_UNDEFINED_INDEX
      then MXL_UNDEFINED_INDEX
      else if mxlIndexToTimestamp (some ⟨30000, 1001⟩) 1 ≤ 1000 then 0
      else mxlIndexToTimestamp (some ⟨30000, 1001⟩) 1 - 1000 :=
  C7_nsUntilIndex_behaviour ⟨30000, 1001⟩ 1 1000 (by decide) (by decide)
    (by decide) (by decide)

/-- C10: `mxlGetCurrentIndex` returns the sentinel when the rate is
invalid or the clock read failed (`mxlGetTime` returned 0); otherwise it
equals `mxlTimestampToIndex` at the clock value; a clock failure is never
reported as index 0. -/
theorem C10_getCurrentIndex_behaviour (editRate : Option Rational) (nowNs : Nat) :
    (isValidEditRate editRate = false →
      mxlGetCurrentIndex editRate nowNs = MXL_UNDEFINED_INDEX) ∧
    (nowNs = 0 → mxlGetCurrentIndex editRate nowNs = MXL_UNDEFINED_INDEX) ∧
    (isValidEditRate editRate = true → nowNs ≠ 0 →
      mxlGetCurrentIndex editRate nowNs = mxlTimestampToIndex editRate nowNs) ∧
    (nowNs = 0 → mxlGetCurrentIndex editRate nowNs ≠ 0) := by
  refine ⟨?_, ?_, ?_, ?_⟩
  · intro h
    simp [mxlGetCurrentIndex, h]
  · intro h
    by_cases hv : isValidEditRate editRate <;> simp [mxlGetCurrentIndex, hv, h]
  · intro hv hn
    simp [mxlGetCurrentIndex, hv, hn]
  · intro h
    by_cases hv : isValidEditRate editRate <;>
      simp [mxlGetCurrentIndex, hv, h, MXL_UNDEFINED_INDEX]

/-- Witness for C10 with a valid rate and a failed (zero) clock reading. -/
theorem C10_getCurrentIndex_behaviour_witness :
    mxlGetCurrentIndex (some ⟨30000, 1001⟩) 0 = MXL_UNDEFINED_INDEX ∧
    mxlGetCurrentIndex (some ⟨30000, 1001⟩) 0 ≠ 0 :=
  ⟨(C10_getCurrentIndex_behaviour (some ⟨30000, 1001⟩) 0).2.1 rfl,
   (C10_getCurrentIndex_behaviour (some ⟨30000, 1001⟩) 0).2.2.2 rfl⟩

end MxlTime

namespace MxlFlow

/-- Data formats.  Modelled from the spec: the `mxlDataFormat` enum is
declared in `mxl/flow.h`, which is not under `src/`; the spec names
`Video`, `Audio`, `Unspecified`; `other` stands for any further
(unsupported) enumeration value. -/
inductive MxlDataFormat
  | unspecified
  | video
  | audio
  | other
deriving DecidableEq

/-- Modelled from the spec: discrete flows are grain-indexed (e.g. video
frames); `Unspecified` is neither discrete nor continuous. -/
def mxlIsDiscreteDataFormat : MxlDataFormat → Bool
  | .video => true
  | _ => false

/-- Modelled from the spec: continuous flows are channelized sample
streams (e.g. audio); `Unspecified` is neither discrete nor continuous. -/
def mxlIsContinuousDataFormat : MxlDataFormat → Bool
  | .audio => true
  | _ => false

/-- Modelled from the spec: a format is supported iff it is discrete or
continuous. -/
def mxlIsSupportedDataFormat (f : MxlDataFormat) : Bool :=
  mxlIsDiscreteDataFormat f || mxlIsContinuousDataFormat f

/-- `sanitizeFlowFormat` from FlowManager.cpp: maps all currently
unsupported formats to `Unspecified`. -/
def sanitizeFlowFormat (f : MxlDataFormat) : MxlDataFormat :=
  if mxlIsSupportedDataFormat f then f else .unspecified

/-- A path below the MXL domain directory, as a list of name segments. -/
abbrev DomPath := List String

/-- The filesystem state below the domain directory: the set of
directories and the set of files with their contents. -/
structure FileSys where
  dirs : List DomPath
  files : List (DomPath × String)
deriving DecidableEq

/-- Whether a path is the top-level entry named `d` or lies below it. -/
def underTop (d : String) : DomPath → Bool
  | [] => false
  | x :: _ => x == d

/-- The fixed flow-directory suffix (from PathUtils, per the spec the
exact literal `.mxl-flow`). -/
def FLOW_DIRECTORY_NAME_SUFFIX : String := ".mxl-flow"

/-- Modelled from the spec: `makeFlowDirectoryName` (PathUtils is not
under `src/`) appends the fixed suffix to the canonical UUID string. -/
def makeFlowDirectoryName (uuidString : String) : String :=
  uuidString ++ FLOW_DIRECTORY_NAME_SUFFIX

/-- Create (or overwrite) a file entry. -/
def writeFileEntry (fs : FileSys) (p : DomPath) (contents : String) : FileSys :=
  { fs with files := (p, contents) :: fs.files }

/-- Create a directory entry. -/
def addDir (fs : FileSys) (p : DomPath) : FileSys :=
  { fs with dirs := p :: fs.dirs }

/-- `std::filesystem::remove_all` on the top-level entry `d`. -/
def removeAllFs (fs : FileSys) (d : String) : FileSys :=
  { dirs := fs.dirs.filter (fun p => !(underTop d p)),
    files := fs.files.filter (fun e => !(underTop d e.1)) }

/-- The number of entries `remove_all` on `d` removes. -/
def removeCount (fs : FileSys) (d : String) : Nat :=
  (fs.dirs.filter (fun p => underTop d p)).length +
    (fs.files.filter (fun e => underTop d e.1)).length

/-- Rename the top-level segment `src` to `dst` in one path. -/
def renameSeg (s d : String) : DomPath → DomPath
  | [] => []
  | x :: rest => (if x == s then d else x) :: rest

/-- `rename` of the top-level directory `s` to `d`
(`publishFlowDirectory`). -/
def renameFs (fs : FileSys) (s d : String) : FileSys :=
  { dirs := fs.dirs.map (renameSeg s d),
    files := fs.files.map (fun e => (renameSeg s d e.1, e.2)) }

/-- First-match file lookup. -/
def lookupFile : List (DomPath × String) → DomPath → Option String
  | [], _ => none
  | e :: rest, p => if e.1 = p then some e.2 else lookupFile rest p

/-- Errors thrown by flow creation: a format mismatch (`std::runtime_error`
before any filesystem action) or any I/O failure. -/
inductive CreateErr
  | formatMismatch
  | ioError
deriving DecidableEq

/-- Fault injection for each fallible step of flow creation. -/
structure CreateFaults where
  mkdtempFail : Bool
  descriptorFail : Bool
  accessFail : Bool
  flowDataFail : Bool
  grainDirFail : Bool
  grainFail : Option Nat
  channelFail : Bool
  publishFail : Bool
deriving DecidableEq

/-- Opaque stand-in for the grain shared-memory segment bytes. -/
def grainContent : String := "<grain-segment>"

/-- Opaque stand-in for the flow header segment bytes. -/
def flowDataContent : String := "<flow-data-segment>"

/-- Opaque stand-in for the channel-data segment bytes. -/
def channelDataContent : String := "<channel-data-segment>"

/-- The grain-creation loop of `createDiscreteFlow`: emplace grains
`i, i+1, ...` (`k` of them), failing at index `failAt` if injected. -/
def writeGrains (tmp : String) (failAt : Option Nat) :
    FileSys → Nat → Nat → FileSys × Except CreateErr Unit
  | fs, _, 0 => (fs, .ok ())
  | fs, i, k + 1 =>
    if failAt == some i then (fs, .error .ioError)
    else writeGrains tmp failAt
      (writeFileEntry fs [tmp, "grains", toString i] grainContent) (i + 1) k

/-- The body of `createDiscreteFlow`'s `try` block: descriptor, access
file, flow data segment, grain directory, grains. -/
def buildDiscrete (fs : FileSys) (tmp flowDef : String) (grainCount : Nat)
    (f : CreateFaults) : FileSys × Except CreateErr Unit :=
  if f.descriptorFail then (fs, .error .ioError)
  else
    let fs1 := writeFileEntry fs [tmp, "descriptor.json"] flowDef
    if f.accessFail then (fs1, .error .ioError)
    else
      let fs2 := writeFileEntry fs1 [tmp, "access"] ""
      if f.flowDataFail then (fs2, .error .ioError)
      else
        let fs3 := writeFileEntry fs2 [tmp, "data"] flowDataContent
        if f.grainDirFail then (fs3, .error .ioError)
        else
          let fs4 := addDir fs3 [tmp, "grains"]
          writeGrains tmp f.grainFail fs4 0 grainCount

/-- `FlowManager::createDiscreteFlow`: format check, temporary staging
directory, build, publish; on any failure after the staging directory
exists, `remove_all` of the staging directory before the error
propagates. -/
def createDiscreteFlow (fs : FileSys) (tmp uuidString flowDef : String)
    (flowFormat : MxlDataFormat) (grainCount : Nat) (f : CreateFaults) :
    FileSys × Except CreateErr Unit :=
  let fmt := sanitizeFlowFormat flowFormat
  if !mxlIsDiscreteDataFormat fmt then (fs, .error .formatMismatch)
  else if f.mkdtempFail then (fs, .error .ioError)
  else
    let fs1 := addDir fs [tmp]
    match buildDiscrete fs1 tmp flowDef grainCount f with
    | (fs2, .error e) => (removeAllFs fs2 tmp, .error e)
    | (fs2, .ok ()) =>
      if f.publishFail then (removeAllFs fs2 tmp, .error .ioError)
      else (renameFs fs2 tmp (makeFlowDirectoryName uuidString), .ok ())

/-- The body of `createContinuousFlow`'s `try` block: descriptor, flow
data segment, channel buffers. -/
def buildContinuous (fs : FileSys) (tmp flowDef : String)
    (f : CreateFaults) : FileSys × Except CreateErr Unit :=
  if f.descriptorFail then (fs, .error .ioError)
  else
    let fs1 := writeFileEntry fs [tmp, "descriptor.json"] flowDef
    if f.flowDataFail then (fs1, .error .ioError)
    else
      let fs2 := writeFileEntry fs1 [tmp, "data"] flowDataContent
      if f.channelFail then (fs2, .error .ioError)
      else (writeFileEntry fs2 [tmp, "channels"] channelDataContent, .ok ())

/-- `FlowManager::createContinuousFlow`, analogous to the discrete case. -/
def createContinuousFlow (fs : FileSys) (tmp uuidString flowDef : String)
    (flowFormat : MxlDataFormat) (f : CreateFaults) :
    FileSys × Except CreateErr Unit :=
  let fmt := sanitizeFlowFormat flowFormat
  if !mxlIsContinuousDataFormat fmt then (fs, .error .formatMismatch)
  else if f.mkdtempFail then (fs, .error .ioError)
  else
    let fs1 := addDir fs [tmp]
    match buildContinuous fs1 tmp flowDef f with
    | (fs2, .error e) => (removeAllFs fs2 tmp, .error e)
    | (fs2, .ok ()) =>
      if f.publishFail then (removeAllFs fs2 tmp, .error .ioError)
      else (renameFs fs2 tmp (makeFlowDirectoryName uuidString), .ok ())

/-- `FlowManager::deleteFlow(id)`: `remove_all` of the flow directory,
catching any filesystem error (injected via `fsErrorInj`) and reporting
it as `false`; `false` also when nothing was removed. -/
def deleteFlow (fs : FileSys) (uuidString : String) (fsErrorInj : Bool) :
    FileSys × Bool :=
  let flowPath := makeFlowDirectoryName uuidString
  if fsErrorInj then (fs, false)
  else if removeCount fs flowPath == 0 then (fs, false)
  else (removeAllFs fs flowPath, true)

/-- Split a reversed character list at its first `.` (i.e. at the last
dot of the original string): returns the reversed extension characters
(after the dot) and the reversed remaining stem characters. -/
def splitLastDot : List Char → Option (List Char × List Char)
  | [] => none
  | c :: rest =>
    if c = '.' then some ([], rest)
    else
      match splitLastDot rest with
      | some p => some (c :: p.1, p.2)
      | none => none

/-- `std::filesystem::path` `stem()` and `extension()` of a filename:
the extension starts at the rightmost period, except that `.`, `..` and a
period that is the first character (hidden files such as the
`.mxl-tmp-...` staging directories) yield no extension. -/
def stemAndExtension (s : String) : String × String :=
  if s = "." ∨ s = ".." then (s, "")
  else
    match splitLastDot s.toList.reverse with
    | none => (s, "")
    | some (extRev, stemRev) =>
      if stemRev = [] then (s, "")
      else (String.mk stemRev.reverse, String.mk ('.' :: extRev.reverse))

/-- Value of one hexadecimal digit, accepting both cases. -/
def hexDigitVal (c : Char) : Option Nat :=
  if '0' ≤ c ∧ c ≤ '9' then some (c.toNat - 48)
  else if 'a' ≤ c ∧ c ≤ 'f' then some (c.toNat - 87)
  else if 'A' ≤ c ∧ c ≤ 'F' then some (c.toNat - 55)
  else none

/-- Parse a run of hexadecimal digits into an accumulator. -/
def parseHexRun : List Char → Nat → Option Nat
  | [], acc => some acc
  | c :: rest, acc =>
    match hexDigitVal c with
    | some v => parseHexRun rest (acc * 16 + v)
    | none => none

/-- Split a character list into groups separated by `-`. -/
def splitOnDash : List Char → List (List Char)
  | [] => [[]]
  | c :: rest =>
    let r := splitOnDash rest
    if c = '-' then [] :: r
    else
      match r with
      | [] => [[c]]
      | g :: gs => (c :: g) :: gs

/-- Modelled from the spec: `uuids::uuid::from_string` (third-party
library, not under `src/`) parses the canonical 8-4-4-4-12 hexadecimal
form; the result is the 128-bit UUID value. -/
def parseUuid (s : String) : Option Nat :=
  match splitOnDash s.toList with
  | [a, b, c, d, e] =>
    if a.length = 8 ∧ b.length = 4 ∧ c.length = 4 ∧ d.length = 4 ∧
        e.length = 12 then
      parseHexRun (a ++ b ++ c ++ d ++ e) 0
    else none
  | _ => none

/-- One entry of the domain directory as seen by the iterator. -/
structure DirEntry where
  name : String
  isDirectory : Bool
deriving DecidableEq

/-- Filesystem error kinds surfaced by `listFlows`. -/
inductive FsError
  | notFound
  | ioError
deriving DecidableEq

/-- `FlowManager::listFlows`: a missing (or non-directory) domain is a
not-found error; otherwise collect the UUIDs of the directory entries
whose extension is `.mxl-flow` and whose stem parses as a UUID. -/
def listFlows (domainOk : Bool) (entries : List DirEntry) :
    Except FsError (List Nat) :=
  if domainOk then
    .ok (entries.filterMap (fun e =>
      if e.isDirectory && (stemAndExtension e.name).2 == FLOW_DIRECTORY_NAME_SUFFIX
      then parseUuid (stemAndExtension e.name).1
      else none))
  else .error .notFound

/-- Whether the filesystem has no entry at or below top-level name `d`
(the freshness `mkdtemp` guarantees for the staging directory). -/
def freshFs (fs : FileSys) (d : String) : Bool :=
  fs.dirs.all (fun p => !(underTop d p)) &&
    fs.files.all (fun e => !(underTop d e.1))

end MxlFlow

namespace MxlFlow

theorem removeAll_writeFileEntry (fs : FileSys) (tmp : String) (rest : List String)
    (c : String) :
    removeAllFs (writeFileEntry fs (tmp :: rest) c) tmp = removeAllFs fs tmp := by
  simp [removeAllFs, writeFileEntry, underTop]

theorem removeAll_addDir (fs : FileSys) (tmp : String) (rest : List String) :
    removeAllFs (addDir fs (tmp :: rest)) tmp = removeAllFs fs tmp := by
  simp [removeAllFs, addDir, underTop]

theorem removeAll_writeGrains (tmp : String) (fa : Option Nat) (k : Nat) :
    ∀ (i : Nat) (fs : FileSys),
      removeAllFs (writeGrains tmp fa fs i k).1 tmp = removeAllFs fs tmp := by
  induction k with
  | zero => intro i fs; rfl
  | succ k ih =>
    intro i fs
    simp only [writeGrains]
    by_cases hf : (fa == some i) = true
    · simp [hf]
    · rw [if_neg hf, ih (i + 1) (writeFileEntry fs [tmp, "grains", toString i] grainContent),
        removeAll_writeFileEntry]

theorem removeAll_buildDiscrete (fs : FileSys) (tmp flowDef : String)
    (grainCount : Nat) (f : CreateFaults) :
    removeAllFs (buildDiscrete fs tmp flowDef grainCount f).1 tmp =
      removeAllFs fs tmp := by
  unfold buildDiscrete
  split_ifs <;>
    simp only [removeAll_writeGrains, removeAll_addDir, removeAll_writeFileEntry]

theorem removeAll_buildContinuous (fs : FileSys) (tmp flowDef : String)
    (f : CreateFaults) :
    removeAllFs (buildContinuous fs tmp flowDef f).1 tmp = removeAllFs fs tmp := by
  unfold buildContinuous
  split_ifs <;> simp only [removeAll_writeFileEntry]

theorem removeAll_fresh (fs : FileSys) (d : String) (h : freshFs fs d = true) :
    removeAllFs fs d = fs := by
  obtain ⟨dirs, files⟩ := fs
  simp only [freshFs, Bool.and_eq_true, List.all_eq_true] at h
  simp only [removeAllFs]
  congr 1
  · exact List.filter_eq_self.mpr h.1
  · exact List.filter_eq_self.mpr h.2

end MxlFlow

namespace MxlFlow

/-- C6: `deleteFlow` never throws (it is a total boolean function); it
returns `false` on an injected filesystem error, `false` when the flow
directory is already absent (nothing to remove), and `true` exactly when
at least one filesystem entry was removed. -/
theorem C6_deleteFlow_reports_removal (fs : FileSys) (uuidString : String)
    (errInj : Bool) :
    (errInj = true → (deleteFlow fs uuidString errInj).2 = false) ∧
    (removeCount fs (makeFlowDirectoryName uuidString) = 0 →
      (deleteFlow fs uuidString errInj).2 = false) ∧
    (errInj = false →
      ((deleteFlow fs uuidString errInj).2 = true ↔
        1 ≤ removeCount fs (makeFlowDirectoryName uuidString))) := by
  refine ⟨?_, ?_, ?_⟩
  · intro h
    simp [deleteFlow, h]
  · intro h
    by_cases he : errInj <;> simp [deleteFlow, he, h]
  · intro h
    subst h
    by_cases hz : removeCount fs (makeFlowDirectoryName uuidString) = 0 <;>
      simp [deleteFlow, hz] <;> omega

/-- Witness for C6: deleting an existing flow returns true, deleting from
an empty domain returns false. -/
theorem C6_deleteFlow_reports_removal_witness :
    (deleteFlow ⟨[["u.mxl-flow"]], [(["u.mxl-flow", "descriptor.json"], "x")]⟩
        "u" false).2 = true ∧
    (deleteFlow ⟨[], []⟩ "u" false).2 = false :=
  ⟨((C6_deleteFlow_reports_removal
      ⟨[["u.mxl-flow"]], [(["u.mxl-flow", "descriptor.json"], "x")]⟩ "u"
      false).2.2 rfl).mpr (by decide),
   (C6_deleteFlow_reports_removal ⟨[], []⟩ "u" false).2.1 (by decide)⟩

/-- C5: a missing domain is a not-found error, and a returned listing
contains exactly the UUIDs of the directory entries carrying the
`.mxl-flow` extension whose stem parses as a valid UUID; all other
entries are skipped. -/
theorem C5_listFlows_exact (entries : List DirEntry) (u : Nat) :
    listFlows false entries = .error .notFound ∧
    ∀ l, listFlows true entries = .ok l →
      (u ∈ l ↔ ∃ e ∈ entries, e.isDirectory = true ∧
        (stemAndExtension e.name).2 = FLOW_DIRECTORY_NAME_SUFFIX ∧
        parseUuid (stemAndExtension e.name).1 = some u) := by
  refine ⟨rfl, ?_⟩
  intro l hl
  simp only [listFlows, if_pos, Except.ok.injEq] at hl
  subst hl
  rw [List.mem_filterMap]
  constructor
  · rintro ⟨e, he, hf⟩
    by_cases hc : (e.isDirectory &&
        (stemAndExtension e.name).2 == FLOW_DIRECTORY_NAME_SUFFIX) = true
    · rw [if_pos hc] at hf
      simp only [Bool.and_eq_true, beq_iff_eq] at hc
      exact ⟨e, he, hc.1, hc.2, hf⟩
    · rw [if_neg hc] at hf
      exact absurd hf (by simp)
  · rintro ⟨e, he, h1, h2, h3⟩
    refine ⟨e, he, ?_⟩
    rw [if_pos (by simp [h1, h2])]
    exact h3

/-- Witness for C5: a domain with one valid flow directory and one junk
file lists exactly the UUID of the flow directory. -/
theorem C5_listFlows_exact_witness :
    ∃ e ∈ [DirEntry.mk "00000000-0000-0000-0000-000000000001.mxl-flow" true,
           DirEntry.mk "junk.txt" false],
      e.isDirectory = true ∧
      (stemAndExtension e.name).2 = FLOW_DIRECTORY_NAME_SUFFIX ∧
      parseUuid (stemAndExtension e.name).1 = some 1 :=
  ((C5_listFlows_exact
      [DirEntry.mk "00000000-0000-0000-0000-000000000001.mxl-flow" true,
       DirEntry.mk "junk.txt" false] 1).2 [1] rfl).mp (by decide)

end MxlFlow

namespace MxlFlow

theorem createDiscrete_error_restores (fs : FileSys) (tmp uuidString flowDef : String)
    (flowFormat : MxlDataFormat) (grainCount : Nat) (f : CreateFaults)
    (hfresh : freshFs fs tmp = true) (e : CreateErr)
    (herr : (createDiscreteFlow fs tmp uuidString flowDef flowFormat grainCount f).2 =
      .error e) :
    (createDiscreteFlow fs tmp uuidString flowDef flowFormat grainCount f).1 = fs := by
  unfold createDiscreteFlow at herr ⊢
  by_cases hfmt : mxlIsDiscreteDataFormat (sanitizeFlowFormat flowFormat) = true
  · simp only [hfmt, Bool.not_true, Bool.false_eq_true, if_false]
    by_cases hmk : f.mkdtempFail = true
    · simp [hmk]
    · simp only [hmk, Bool.false_eq_true, if_false]
      simp only [hfmt, Bool.not_true, Bool.false_eq_true, if_false, hmk] at herr
      rcases hb : buildDiscrete (addDir fs [tmp]) tmp flowDef grainCount f with ⟨fs2, r2⟩
      have hfs2 : fs2 = (buildDiscrete (addDir fs [tmp]) tmp flowDef grainCount f).1 := by
        rw [hb]
      rw [hb] at herr
      cases r2 with
      | error e2 =>
        show removeAllFs fs2 tmp = fs
        rw [hfs2, removeAll_buildDiscrete, removeAll_addDir, removeAll_fresh fs tmp hfresh]
      | ok u =>
        cases u
        have herr2 : (if f.publishFail = true
            then (removeAllFs fs2 tmp, (Except.error CreateErr.ioError : Except CreateErr Unit))
            else (renameFs fs2 tmp (makeFlowDirectoryName uuidString), Except.ok ())).2 =
            Except.error e := herr
        show (if f.publishFail = true
            then (removeAllFs fs2 tmp, (Except.error CreateErr.ioError : Except CreateErr Unit))
            else (renameFs fs2 tmp (makeFlowDirectoryName uuidString), Except.ok ())).1 = fs
        by_cases hpub : f.publishFail = true
        · rw [if_pos hpub]
          show removeAllFs fs2 tmp = fs
          rw [hfs2, removeAll_buildDiscrete, removeAll_addDir, removeAll_fresh fs tmp hfresh]
        · rw [if_neg hpub] at herr2
          exact absurd herr2 (by simp)
  · simp only [Bool.not_eq_true] at hfmt
    simp [hfmt]

theorem createContinuous_error_restores (fs : FileSys) (tmp uuidString flowDef : String)
    (flowFormat : MxlDataFormat) (f : CreateFaults)
    (hfresh : freshFs fs tmp = true) (e : CreateErr)
    (herr : (createContinuousFlow fs tmp uuidString flowDef flowFormat f).2 = .error e) :
    (createContinuousFlow fs tmp uuidString flowDef flowFormat f).1 = fs := by
  unfold createContinuousFlow at herr ⊢
  by_cases hfmt : mxlIsContinuousDataFormat (sanitizeFlowFormat flowFormat) = true
  · simp only [hfmt, Bool.not_true, Bool.false_eq_true, if_false]
    by_cases hmk : f.mkdtempFail = true
    · simp [hmk]
    · simp only [hmk, Bool.false_eq_true, if_false]
      simp only [hfmt, Bool.not_true, Bool.false_eq_true, if_false, hmk] at herr
      rcases hb : buildContinuous (addDir fs [tmp]) tmp flowDef f with ⟨fs2, r2⟩
      have hfs2 : fs2 = (buildContinuous (addDir fs [tmp]) tmp flowDef f).1 := by
        rw [hb]
      rw [hb] at herr
      cases r2 with
      | error e2 =>
        show removeAllFs fs2 tmp = fs
        rw [hfs2, removeAll_buildContinuous, removeAll_addDir, removeAll_fresh fs tmp hfresh]
      | ok u =>
        cases u
        have herr2 : (if f.publishFail = true
            then (removeAllFs fs2 tmp, (Except.error CreateErr.ioError : Except CreateErr Unit))
            else (renameFs fs2 tmp (makeFlowDirectoryName uuidString), Except.ok ())).2 =
            Except.error e := herr
        show (if f.publishFail = true
            then (removeAllFs fs2 tmp, (Except.error CreateErr.ioError : Except CreateErr Unit))
            else (renameFs fs2 tmp (makeFlowDirectoryName uuidString), Except.ok ())).1 = fs
        by_cases hpub : f.publishFail = true
        · rw [if_pos hpub]
          show removeAllFs fs2 tmp = fs
          rw [hfs2, removeAll_buildContinuous, removeAll_addDir, removeAll_fresh fs tmp hfresh]
        · rw [if_neg hpub] at herr2
          exact absurd herr2 (by simp)
  · simp only [Bool.not_eq_true] at hfmt
    simp [hfmt]

/-- C4: a mismatched (or unsupported, hence sanitized-to-Unspecified)
format is rejected with the filesystem untouched, before any directory is
created; and any failing creation restores the filesystem exactly (the
staging directory is removed and no `<uuid>.mxl-flow` directory ever
appears), given that the staging name is fresh as `mkdtemp` guarantees. -/
theorem C4_failed_create_publishes_nothing (fs : FileSys)
    (tmp uuidString flowDef : String) (flowFormat : MxlDataFormat)
    (grainCount : Nat) (f : CreateFaults) :
    (mxlIsDiscreteDataFormat (sanitizeFlowFormat flowFormat) = false →
      createDiscreteFlow fs tmp uuidString flowDef flowFormat grainCount f =
        (fs, .error .formatMismatch)) ∧
    (mxlIsContinuousDataFormat (sanitizeFlowFormat flowFormat) = false →
      createContinuousFlow fs tmp uuidString flowDef flowFormat f =
        (fs, .error .formatMismatch)) ∧
    (freshFs fs tmp = true →
      ∀ e, (createDiscreteFlow fs tmp uuidString flowDef flowFormat grainCount f).2 =
          .error e →
        (createDiscreteFlow fs tmp uuidString flowDef flowFormat grainCount f).1 = fs) ∧
    (freshFs fs tmp = true →
      ∀ e, (createContinuousFlow fs tmp uuidString flowDef flowFormat f).2 = .error e →
        (createContinuousFlow fs tmp uuidString flowDef flowFormat f).1 = fs) := by
  refine ⟨?_, ?_, ?_, ?_⟩
  · intro h
    simp [createDiscreteFlow, h]
  · intro h
    simp [createContinuousFlow, h]
  · intro hfresh e herr
    exact createDiscrete_error_restores fs tmp uuidString flowDef flowFormat grainCount f
      hfresh e herr
  · intro hfresh e herr
    exact createContinuous_error_restores fs tmp uuidString flowDef flowFormat f
      hfresh e herr

/-- Witness for C4: creating a discrete flow with the (continuous) audio
format fails with the filesystem untouched, and a failing descriptor
write rolls the staging directory back to the empty filesystem. -/
theorem C4_failed_create_publishes_nothing_witness :
    (createDiscreteFlow ⟨[], []⟩ ".mxl-tmp-a" "u" "{}" MxlDataFormat.audio 2
        ⟨false, false, false, false, false, none, false, false⟩ =
      (⟨[], []⟩, .error .formatMismatch)) ∧
    (createDiscreteFlow ⟨[], []⟩ ".mxl-tmp-a" "u" "{}" MxlDataFormat.video 2
        ⟨false, true, false, false, false, none, false, false⟩).1 = ⟨[], []⟩ :=
  ⟨(C4_failed_create_publishes_nothing ⟨[], []⟩ ".mxl-tmp-a" "u" "{}"
      MxlDataFormat.audio 2 ⟨false, false, false, false, false, none, false, false⟩).1
      (by decide),
   (C4_failed_create_publishes_nothing ⟨[], []⟩ ".mxl-tmp-a" "u" "{}"
      MxlDataFormat.video 2 ⟨false, true, false, false, false, none, false, false⟩).2.2.1
      (by decide) .ioError rfl⟩

end MxlFlow

namespace MxlFlow

theorem lookup_renamed_writeGrains (tmp final : String) (fa : Option Nat)
    (k : Nat) :
    ∀ (i : Nat) (fs : FileSys),
      lookupFile ((writeGrains tmp fa fs i k).1.files.map
          (fun e => (renameSeg tmp final e.1, e.2))) [final, "descriptor.json"] =
        lookupFile (fs.files.map (fun e => (renameSeg tmp final e.1, e.2)))
          [final, "descriptor.json"] := by
  induction k with
  | zero => intro i fs; rfl
  | succ k ih =>
    intro i fs
    simp only [writeGrains]
    by_cases hf : (fa == some i) = true
    · simp [hf]
    · rw [if_neg hf, ih (i + 1) (writeFileEntry fs [tmp, "grains", toString i] grainContent)]
      simp only [writeFileEntry, List.map_cons, lookupFile, renameSeg, beq_self_eq_true,
        if_true, List.cons.injEq]
      rw [if_neg (by simp)]

/-- C8: after every successful discrete or continuous flow creation, the
published flow directory contains a `descriptor.json` whose contents
equal the descriptor string supplied to the call. -/
theorem C8_descriptor_stored_verbatim (fs : FileSys)
    (tmp uuidString flowDef : String) (flowFormat : MxlDataFormat)
    (grainCount : Nat) (f : CreateFaults) :
    ((createDiscreteFlow fs tmp uuidString flowDef flowFormat grainCount f).2 = .ok () →
      lookupFile (createDiscreteFlow fs tmp uuidString flowDef flowFormat grainCount
          f).1.files [makeFlowDirectoryName uuidString, "descriptor.json"] =
        some flowDef) ∧
    ((createContinuousFlow fs tmp uuidString flowDef flowFormat f).2 = .ok () →
      lookupFile (createContinuousFlow fs tmp uuidString flowDef flowFormat
          f).1.files [makeFlowDirectoryName uuidString, "descriptor.json"] =
        some flowDef) := by
  constructor
  · intro hok
    unfold createDiscreteFlow at hok ⊢
    by_cases hfmt : mxlIsDiscreteDataFormat (sanitizeFlowFormat flowFormat) = true
    case neg => simp [hfmt] at hok
    simp only [hfmt, Bool.not_true, Bool.false_eq_true, if_false] at hok ⊢
    by_cases hmk : f.mkdtempFail = true
    case pos => simp [hmk] at hok
    simp only [hmk, Bool.false_eq_true, if_false] at hok ⊢
    rcases hb : buildDiscrete (addDir fs [tmp]) tmp flowDef grainCount f with ⟨fs2, r2⟩
    rw [hb] at hok
    cases r2 with
    | error e2 => exact absurd hok (by simp)
    | ok u =>
      cases u
      have hok2 : (if f.publishFail = true
          then (removeAllFs fs2 tmp, (Except.error CreateErr.ioError : Except CreateErr Unit))
          else (renameFs fs2 tmp (makeFlowDirectoryName uuidString), Except.ok ())).2 =
          Except.ok () := hok
      show lookupFile ((if f.publishFail = true
          then (removeAllFs fs2 tmp, (Except.error CreateErr.ioError : Except CreateErr Unit))
          else (renameFs fs2 tmp (makeFlowDirectoryName uuidString),
            Except.ok ())).1).files
        [makeFlowDirectoryName uuidString, "descriptor.json"] = some flowDef
      by_cases hpub : f.publishFail = true
      · rw [if_pos hpub] at hok2
        exact absurd hok2 (by simp)
      · rw [if_neg hpub]
        unfold buildDiscrete at hb
        split_ifs at hb with h1 h2 h3 h4
        · exact absurd hb (by simp)
        · exact absurd hb (by simp)
        · exact absurd hb (by simp)
        · exact absurd hb (by simp)
        · have hfs2 : fs2 = (writeGrains tmp f.grainFail
              (addDir (writeFileEntry (writeFileEntry (writeFileEntry (addDir fs [tmp])
                [tmp, "descriptor.json"] flowDef) [tmp, "access"] "")
                [tmp, "data"] flowDataContent) [tmp, "grains"]) 0 grainCount).1 := by
            rw [hb]
          simp only [renameFs]
          rw [hfs2, lookup_renamed_writeGrains]
          simp only [addDir, writeFileEntry, List.map_cons, lookupFile, renameSeg,
            beq_self_eq_true, if_true, List.cons.injEq]
          rfl
  · intro hok
    unfold createContinuousFlow at hok ⊢
    by_cases hfmt : mxlIsContinuousDataFormat (sanitizeFlowFormat flowFormat) = true
    case neg => simp [hfmt] at hok
    simp only [hfmt, Bool.not_true, Bool.false_eq_true, if_false] at hok ⊢
    by_cases hmk : f.mkdtempFail = true
    case pos => simp [hmk] at hok
    simp only [hmk, Bool.false_eq_true, if_false] at hok ⊢
    rcases hb : buildContinuous (addDir fs [tmp]) tmp flowDef f with ⟨fs2, r2⟩
    rw [hb] at hok
    cases r2 with
    | error e2 => exact absurd hok (by simp)
    | ok u =>
      cases u
      have hok2 : (if f.publishFail = true
          then (removeAllFs fs2 tmp, (Except.error CreateErr.ioError : Except CreateErr Unit))
          else (renameFs fs2 tmp (makeFlowDirectoryName uuidString), Except.ok ())).2 =
          Except.ok () := hok
      show lookupFile ((if f.publishFail = true
          then (removeAllFs fs2 tmp, (Except.error CreateErr.ioError : Except CreateErr Unit))
          else (renameFs fs2 tmp (makeFlowDirectoryName uuidString),
            Except.ok ())).1).files
        [makeFlowDirectoryName uuidString, "descriptor.json"] = some flowDef
      by_cases hpub : f.publishFail = true
      · rw [if_pos hpub] at hok2
        exact absurd hok2 (by simp)
      · rw [if_neg hpub]
        unfold buildContinuous at hb
        split_ifs at hb with h1 h2 h3
        · exact absurd hb (by simp)
        · exact absurd hb (by simp)
        · exact absurd hb (by simp)
        · have hfs2 : fs2 = writeFileEntry (writeFileEntry (writeFileEntry
              (addDir fs [tmp]) [tmp, "descriptor.json"] flowDef) [tmp, "data"]
              flowDataContent) [tmp, "channels"] channelDataContent :=
            (congrArg Prod.fst hb).symm
          simp only [renameFs]
          rw [hfs2]
          simp only [addDir, writeFileEntry, List.map_cons, lookupFile, renameSeg,
            beq_self_eq_true, if_true, List.cons.injEq]
          rfl

/-- Witness for C8: a successful discrete creation stores the supplied
descriptor bytes under the published directory. -/
theorem C8_descriptor_stored_verbatim_witness :
    lookupFile (createDiscreteFlow ⟨[], []⟩ ".mxl-tmp-a" "u" "descriptor-bytes"
        MxlDataFormat.video 2
        ⟨false, false, false, false, false, none, false, false⟩).1.files
      [makeFlowDirectoryName "u", "descriptor.json"] = some "descriptor-bytes" :=
  (C8_descriptor_stored_verbatim ⟨[], []⟩ ".mxl-tmp-a" "u" "descriptor-bytes"
      MxlDataFormat.video 2
      ⟨false, false, false, false, false, none, false, false⟩).1 rfl

end MxlFlow
